import Mathlib

/-!
Verification development for the image-optimizer repository.

The core of the repository is the single-item optimizer, the batch
orchestrator, the HTTP optimize handler and the archive builder
(src/optimizer.ts, src/index.ts, api/optimize.ts).  Filesystem effects
are modelled by explicit state passing over a map from path to file
size, and the external image codec (the sharp library) is a black-box
oracle that either writes an output file of some size or fails with a
message.  Machine arithmetic on sizes and percentages is modelled over
Nat, Int and Rat (JavaScript Math.round is floor of x + 1/2).
-/

set_option autoImplicit false

namespace ImageOpt

/-! Section: Path helpers (Node path module, POSIX semantics) -/

/-- Model of path.basename: the part of the path after the last slash. -/
def basename (p : String) : String :=
  ⟨(p.toList.reverse.takeWhile (fun c => c ≠ '/')).reverse⟩

/-- Model of path.dirname: everything before the last slash, with the Node
conventions that a path without a slash has dirname "." and a path whose
only slash is leading has dirname "/". -/
def dirname (p : String) : String :=
  let l := p.toList
  if l.contains '/' then
    let d := (l.reverse.dropWhile (fun c => c ≠ '/')).reverse
    if d = ['/'] then "/" else ⟨d.dropLast⟩
  else "."

/-- Index of the last occurrence of a dot in a list of characters. -/
def lastDotIdx (l : List Char) : Option Nat :=
  match l.reverse.findIdx? (fun c => c = '.') with
  | none => none
  | some j => some (l.length - 1 - j)

/-- Model of path.extname: the suffix of the basename from its last dot,
empty when the basename has no dot, when its only dot is its first
character (a hidden file), or for the special name consisting of two
dots. -/
def extname (p : String) : String :=
  let b := (basename p).toList
  match lastDotIdx b with
  | none => ""
  | some 0 => ""
  | some i => if b = ['.', '.'] then "" else ⟨b.drop i⟩

/-- Model of path.join on two segments: concatenation with a slash
separator (no dot-dot segments occur in this code base). -/
def pathJoin (a b : String) : String :=
  if a = "" then b else a ++ "/" ++ b

/-- JavaScript Math.round: round half toward positive infinity. -/
def jsRound (x : ℚ) : ℤ := ⌊x + 1/2⌋

/-- Rounding to two decimal places as the source writes it:
Math.round(x * 100) / 100. -/
def round2 (x : ℚ) : ℚ := (jsRound (x * 100) : ℚ) / 100

/-! Section: Data model (src/optimizer.ts) -/

/-- The closed format enumeration of OptimizeOptions.format. -/
inductive Format where
  | webp
  | png
  | jpg
deriving DecidableEq, Repr

/-- The string value carried by the format union type. -/
def formatName : Format → String
  | .webp => "webp"
  | .png => "png"
  | .jpg => "jpg"

/-- Source line: const outputExtension, equal to the string jpg when the format is jpg, else the format name. -/
def outputExtension (f : Format) : String :=
  if f = .jpg then "jpg" else formatName f

/-- PNG branch of optimizeImage: Math.round((100 - quality) / 11.11),
then clamped by Math.min(9, Math.max(0, _)). Here 11.11 is the decimal
literal of the source, as the exact rational 1111/100. -/
def pngCompressionLevel (quality : ℤ) : ℤ :=
  min 9 (max 0 (jsRound ((100 - (quality : ℚ)) / (1111/100))))

/-- The per-format parameters handed to the codec (the sharp call chain:
webp with quality and effort 6, png with the clamped compression level,
jpeg with quality and mozjpeg). -/
inductive EncodeSpec where
  | webp (quality : ℤ) (effort : ℕ)
  | png (compressionLevel : ℤ)
  | jpeg (quality : ℤ) (mozjpeg : Bool)
deriving DecidableEq, Repr

/-- Dispatch of the format branch in optimizeImage to codec parameters. -/
def encodeSpec (f : Format) (quality : ℤ) : EncodeSpec :=
  match f with
  | .webp => .webp quality 6
  | .png => .png (pngCompressionLevel quality)
  | .jpg => .jpeg quality true

/-- OptimizeOptions with the defaults destructured at the top of
optimizeImage. -/
structure OptimizeOptions where
  quality : ℤ := 75
  outputDir : Option String := none
  keepOriginal : Bool := false
  format : Format := .webp
deriving Repr

/-- OptimizeResult, one per processed item.  Sizes are byte counts;
reduction is the rounded percentage; error is present exactly on the
failure shape. -/
structure OptimizeResult where
  inputPath : String
  outputPath : String
  originalSize : ℕ
  optimizedSize : ℕ
  reduction : ℚ
  success : Bool
  error : Option String
deriving DecidableEq, Repr

/-! Section: Filesystem state and the codec oracle -/

/-- Filesystem state: a map from file path to byte size, plus the set of
directories created so far (for mkdir recursive). -/
structure FS where
  files : String → Option ℕ
  dirs : String → Bool

/-- Writing a file (the codec call toFile) records its size at its path. -/
def fsWrite (fs : FS) (p : String) (sz : ℕ) : FS :=
  { fs with files := fun q => if q = p then some sz else fs.files q }

/-- Deleting a file (fs.unlink). -/
def fsErase (fs : FS) (p : String) : FS :=
  { fs with files := fun q => if q = p then none else fs.files q }

/-- Creating a directory (fs.mkdir with recursive true). -/
def fsMkdir (fs : FS) (d : String) : FS :=
  { fs with dirs := fun q => if q = d then true else fs.dirs q }

/-- The black-box image codec (the sharp library): given the input path,
the per-format parameters and the output path, it either reports the
byte size of the file it wrote, or fails with an error message. -/
def Codec : Type := String → EncodeSpec → String → Except String ℕ

/-- The failure result built in the catch branch of optimizeImage. -/
def failResult (inputPath msg : String) : OptimizeResult :=
  { inputPath := inputPath
    outputPath := ""
    originalSize := 0
    optimizedSize := 0
    reduction := 0
    success := false
    error := some msg }

/-! Section: Single-item optimizer (optimizeImage, src/optimizer.ts 25-103) -/

/-- Shallow embedding of optimizeImage.  The fs.access and fs.stat calls
on the input become one lookup; mkdir happens when outputDir is set; the
codec writes the output file; fs.stat on the output reads it back; the
original is unlinked when keepOriginal is false and the lowercased input
extension differs from the target extension; any failure is caught into
the failure result, with the state reached so far. -/
def optimizeImage (codec : Codec) (fs : FS) (inputPath : String)
    (o : OptimizeOptions) : OptimizeResult × FS :=
  match fs.files inputPath with
  | none => (failResult inputPath "ENOENT: no such file or directory", fs)
  | some originalSize =>
    let inputDir := dirname inputPath
    let inputName := (basename inputPath).dropRight (extname inputPath).length
    let outExt := outputExtension o.format
    let outputPath :=
      match o.outputDir with
      | some d => pathJoin d (inputName ++ "." ++ outExt)
      | none => pathJoin inputDir (inputName ++ "." ++ outExt)
    let fs1 :=
      match o.outputDir with
      | some d => fsMkdir fs d
      | none => fs
    match codec inputPath (encodeSpec o.format o.quality) outputPath with
    | .error e => (failResult inputPath e, fs1)
    | .ok sz =>
      let fs2 := fsWrite fs1 outputPath sz
      match fs2.files outputPath with
      | none => (failResult inputPath "ENOENT: stat on output failed", fs2)
      | some optimizedSize =>
        let reduction : ℚ :=
          (((originalSize : ℚ) - (optimizedSize : ℚ)) / (originalSize : ℚ)) * 100
        let inputExt := (extname inputPath).toLower
        let outExtDot := "." ++ outExt
        let fs3 :=
          if o.keepOriginal = false ∧ inputExt ≠ outExtDot then
            fsErase fs2 inputPath
          else fs2
        ({ inputPath := inputPath
           outputPath := outputPath
           originalSize := originalSize
           optimizedSize := optimizedSize
           reduction := round2 reduction
           success := true
           error := none }, fs3)

/-- The success shape of an OptimizeResult: success, a non-empty output
path, no error field. -/
def isSuccessShape (r : OptimizeResult) : Prop :=
  r.success = true ∧ r.outputPath ≠ "" ∧ r.error = none

/-- The failure shape of an OptimizeResult: failure, an error message,
empty output path and zeroed sizes and reduction. -/
def isFailureShape (r : OptimizeResult) : Prop :=
  r.success = false ∧ r.error.isSome = true ∧ r.outputPath = "" ∧
    r.originalSize = 0 ∧ r.optimizedSize = 0 ∧ r.reduction = 0

/-! Section: Batch orchestrator (optimizeBatch, src/optimizer.ts 108-120) -/

/-- Shallow embedding of optimizeBatch: one optimizeImage call per input,
sequentially, each result appended regardless of failure, the filesystem
state threaded through. -/
def optimizeBatch (codec : Codec) (fs : FS) (inputPaths : List String)
    (o : OptimizeOptions) : List OptimizeResult × FS :=
  match inputPaths with
  | [] => ([], fs)
  | p :: rest =>
    let step := optimizeImage codec fs p o
    let tail := optimizeBatch codec step.2 rest o
    (step.1 :: tail.1, tail.2)

/-- Filesystem state after the batch has processed a prefix of inputs. -/
def batchFS (codec : Codec) (fs : FS) (inputPaths : List String)
    (o : OptimizeOptions) : FS :=
  match inputPaths with
  | [] => fs
  | p :: rest => batchFS codec (optimizeImage codec fs p o).2 rest o

/-! Section: Archive builder (src/index.ts 362-379, api/optimize.ts 119-128) -/

/-- The entry-adding loop of the archive builder: for each optimized
output path, check with fs.access that it still exists; if so add an
entry named by its base filename, otherwise skip it (the omission is
only logged) and continue. -/
def archiveEntries (fs : FS) : List String → List String
  | [] => []
  | p :: rest =>
    match fs.files p with
    | some _ => basename p :: archiveEntries fs rest
    | none => archiveEntries fs rest

/-! Section: HTTP optimize handler (src/index.ts 194-424) -/

/-- One uploaded file as seen by the route handler: its temp path on
disk and the client-supplied original name. -/
structure UploadedFile where
  path : String
  originalname : String
deriving DecidableEq, Repr

/-- The response shapes of the optimize route: 400 with an error message
and an optional details list of file-error pairs, 200 with the archive
entry list, or 500 with an error and a message. -/
inductive OptimizeResponse where
  | badRequest (error : String) (details : Option (List (String × String)))
  | okZip (entries : List String)
  | serverError (error : String) (message : String)
deriving DecidableEq, Repr

/-- The per-file loop of the handler: optimize each upload into the temp
directory with keepOriginal hardcoded false, record every result, record
the output path of each success, and unlink the uploaded original
(errors from the unlink are ignored).  Returns the results, the
successfully optimized output paths in production order, and the final
filesystem state. -/
def processFiles (codec : Codec) (fs : FS) (tempDir : String) (quality : ℤ)
    (format : Format) : List UploadedFile → List OptimizeResult × List String × FS
  | [] => ([], [], fs)
  | f :: rest =>
    let step := optimizeImage codec fs f.path
      { quality := quality, outputDir := some tempDir,
        keepOriginal := false, format := format }
    let fs2 := fsErase step.2 f.path
    let tail := processFiles codec fs2 tempDir quality format rest
    (step.1 :: tail.1,
     (if step.1.success then [step.1.outputPath] else []) ++ tail.2.1,
     tail.2.2)

/-- Shallow embedding of the optimize route handler, from the upload
check to the response: 400 without details when no files were sent; 400
with one detail per result when no file was optimized successfully; else
the archive built from the successful outputs is delivered and the
optimized temp files are removed. -/
def handleOptimize (codec : Codec) (fs : FS) (tempDir : String)
    (files : List UploadedFile) (quality : ℤ) (format : Format) :
    OptimizeResponse × FS :=
  if files = [] then
    (.badRequest "Nenhuma imagem foi enviada" none, fs)
  else
    let run := processFiles codec fs tempDir quality format files
    let results := run.1
    let optimizedFiles := run.2.1
    let fs1 := run.2.2
    if optimizedFiles = [] then
      (.badRequest "Nenhuma imagem foi processada com sucesso"
        (some (results.map fun r => (r.inputPath, r.error.getD "Erro desconhecido"))),
       fs1)
    else
      let entries := archiveEntries fs1 optimizedFiles
      let fs2 := optimizedFiles.foldl fsErase fs1
      (.okZip entries, fs2)

/-! Section: Directory scan (findImagesInDirectory, src/optimizer.ts 125-151) -/

/-- One entry of a directory listing: a plain file or a subdirectory
with its own listing. -/
inductive DirEntry where
  | file (name : String)
  | dir (name : String) (entries : List DirEntry)
deriving Repr

/-- The extension whitelist of findImagesInDirectory. -/
def supportedExtensions : List String := [".png", ".jpg", ".jpeg", ".webp"]

/-- The per-file check of the scan: the extension of the entry name,
lowercased, is on the whitelist. -/
def isSupportedImage (name : String) : Bool :=
  supportedExtensions.contains (extname name).toLower

/-- The inner scanDirectory recursion: directories are descended into
only when recursive is set, files are kept when their lowercased
extension is supported, paths are joined onto the current path. -/
def scanDir (recursive : Bool) (currentPath : String) :
    List DirEntry → List String
  | [] => []
  | .dir name es :: rest =>
    (if recursive then scanDir recursive (pathJoin currentPath name) es else [])
      ++ scanDir recursive currentPath rest
  | .file name :: rest =>
    (if isSupportedImage name then [pathJoin currentPath name] else [])
      ++ scanDir recursive currentPath rest

/-- Shallow embedding of findImagesInDirectory over a directory listing
tree rooted at dirPath. -/
def findImagesInDirectory (listing : List DirEntry) (dirPath : String)
    (recursive : Bool := true) : List String :=
  scanDir recursive dirPath listing

/-- All files of a listing with their full paths and bare names,
descending into every subdirectory. -/
def allFiles (currentPath : String) : List DirEntry → List (String × String)
  | [] => []
  | .dir name es :: rest =>
    allFiles (pathJoin currentPath name) es ++ allFiles currentPath rest
  | .file name :: rest =>
    (pathJoin currentPath name, name) :: allFiles currentPath rest

/-- The top-level files of a listing with their full paths and bare
names, not descending into subdirectories. -/
def topFiles (currentPath : String) : List DirEntry → List (String × String)
  | [] => []
  | .dir _ _ :: rest => topFiles currentPath rest
  | .file name :: rest =>
    (pathJoin currentPath name, name) :: topFiles currentPath rest

/-! Section: formatBytes (src/optimizer.ts 156-162) -/

/-- The unit array of formatBytes. -/
def sizesArr : List String := ["Bytes", "KB", "MB", "GB"]

/-- The unit index Math.floor(Math.log(bytes) / Math.log(1024)), modelled
exactly as the floor of the base-1024 logarithm. -/
def unitIndex (bytes : ℕ) : ℕ := Nat.log 1024 bytes

/-- Shallow embedding of formatBytes: zero is special-cased, otherwise
the value is scaled by the unit, rounded to two decimals, and suffixed
with the indexed unit name; an out-of-range index reads as the
JavaScript undefined value in the concatenation. -/
def formatBytes (bytes : ℕ) : String :=
  if bytes = 0 then "0 Bytes"
  else
    let i := unitIndex bytes
    let v : ℚ := (jsRound ((bytes : ℚ) / (1024 : ℚ) ^ i * 100) : ℚ) / 100
    toString v ++ " " ++ ((sizesArr.get? i).getD "undefined")

/-! Section: Sample objects used by the witness theorems -/

/-- A filesystem holding one 100-byte image. -/
def sampleFS : FS :=
  { files := fun p => if p = "d/a.png" then some 100 else none
    dirs := fun _ => false }

/-- A codec oracle that always writes a 40-byte output. -/
def codecOk : Codec := fun _ _ _ => .ok 40

/-- A codec oracle that always fails. -/
def codecFail : Codec := fun _ _ _ => .error "boom"

/-- One uploaded file pointing at the sample image. -/
def sampleUpload : UploadedFile := { path := "d/a.png", originalname := "a.png" }

/-- A directory listing with uppercase and mixed-case extensions and a
subdirectory. -/
def sampleListing : List DirEntry :=
  [.file "PHOTO.JPG", .dir "sub" [.file "img.PnG"], .file "notes.txt"]

/-- Projection of the details list out of a response. -/
def responseDetails : OptimizeResponse → Option (List (String × String))
  | .badRequest _ d => d
  | _ => none

/-! Section: Helper lemmas -/

theorem pathJoin_dotted_ne_empty (a n e : String) :
    pathJoin a (n ++ "." ++ e) ≠ "" := by
  unfold pathJoin
  split
  · intro h
    have h1 := congrArg String.length h
    simp [String.length_append] at h1
    exact absurd h1.1.2 (by decide)
  · intro h
    have h1 := congrArg String.length h
    simp [String.length_append] at h1
    exact absurd h1.1.2 (by decide)

/-! Section: Claim theorems -/

/-- C1: optimizeImage always returns a result and never raises past its
boundary: every result is exactly one of the success shape (success with
a non-empty output path and no error field) or the failure shape
(failure with an error populated, empty output path, zero sizes and zero
reduction). -/
theorem optimizeImage_result_shape (codec : Codec) (fs : FS) (p : String)
    (o : OptimizeOptions) :
    (isSuccessShape (optimizeImage codec fs p o).1 ∨
      isFailureShape (optimizeImage codec fs p o).1) ∧
    ¬(isSuccessShape (optimizeImage codec fs p o).1 ∧
      isFailureShape (optimizeImage codec fs p o).1) := by
  constructor
  · simp only [optimizeImage]
    split
    · right
      simp [failResult, isFailureShape]
    · split
      · right
        simp [failResult, isFailureShape]
      · split
        · right
          simp [failResult, isFailureShape]
        · left
          refine ⟨rfl, ?_, rfl⟩
          split <;> exact pathJoin_dotted_ne_empty _ _ _
  · rintro ⟨⟨hs, -⟩, ⟨hf, -⟩⟩
    rw [hs] at hf
    simp at hf

/-- C3: on success the reduction field equals the percentage change
rounded to two decimals, computed from the returned sizes; on failure
the reduction is 0; and whenever the returned originalSize is 0 the
reduction is 0 as well. -/
theorem optimizeImage_reduction_formula (codec : Codec) (fs : FS) (p : String)
    (o : OptimizeOptions) :
    ((optimizeImage codec fs p o).1.success = true →
      (optimizeImage codec fs p o).1.reduction =
        round2 ((((optimizeImage codec fs p o).1.originalSize : ℚ) -
                  ((optimizeImage codec fs p o).1.optimizedSize : ℚ)) /
                ((optimizeImage codec fs p o).1.originalSize : ℚ) * 100)) ∧
    ((optimizeImage codec fs p o).1.success = false →
      (optimizeImage codec fs p o).1.reduction = 0) ∧
    ((optimizeImage codec fs p o).1.originalSize = 0 →
      (optimizeImage codec fs p o).1.reduction = 0) := by
  simp only [optimizeImage]
  split
  · exact ⟨fun h => by simp [failResult] at h, fun _ => rfl, fun _ => rfl⟩
  · split
    · exact ⟨fun h => by simp [failResult] at h, fun _ => rfl, fun _ => rfl⟩
    · split
      · exact ⟨fun h => by simp [failResult] at h, fun _ => rfl, fun _ => rfl⟩
      · rename_i o1 orig ho1 e1 sz he1 o2 optSz ho2
        refine ⟨fun _ => rfl, fun h => by simp at h, fun h0 => ?_⟩
        have h0z : orig = 0 := by simpa using h0
        subst h0z
        simp only [Nat.cast_zero, zero_sub, div_zero, zero_mul, round2, jsRound,
          zero_add]
        norm_num

/-- C6: the png branch hands the codec the compression level
min 9 (max 0 (round ((100 - quality) / 11.11))); the level is always in
the interval from 0 to 9, quality 100 yields level 0 and quality 0
yields level 9. -/
theorem png_quality_mapping (q : ℤ) :
    encodeSpec .png q =
      .png (min 9 (max 0 (jsRound ((100 - (q : ℚ)) / (1111/100))))) ∧
    0 ≤ pngCompressionLevel q ∧ pngCompressionLevel q ≤ 9 ∧
    pngCompressionLevel 100 = 0 ∧ pngCompressionLevel 0 = 9 := by
  refine ⟨rfl, ?_, ?_, ?_, ?_⟩
  · exact le_min (by norm_num) (le_max_left _ _)
  · exact min_le_left _ _
  · norm_num [pngCompressionLevel, jsRound]
  · norm_num [pngCompressionLevel, jsRound]

/-- C1 witness at a concrete call. -/
theorem optimizeImage_result_shape_witness :
    (isSuccessShape (optimizeImage codecOk sampleFS "d/a.png" {}).1 ∨
      isFailureShape (optimizeImage codecOk sampleFS "d/a.png" {}).1) ∧
    ¬(isSuccessShape (optimizeImage codecOk sampleFS "d/a.png" {}).1 ∧
      isFailureShape (optimizeImage codecOk sampleFS "d/a.png" {}).1) :=
  optimizeImage_result_shape codecOk sampleFS "d/a.png" {}

/-- C3 witness at a concrete successful call. -/
theorem optimizeImage_reduction_formula_witness :
    (optimizeImage codecOk sampleFS "d/a.png" {}).1.success = true ∧
    (optimizeImage codecOk sampleFS "d/a.png" {}).1.reduction =
      round2 ((((optimizeImage codecOk sampleFS "d/a.png" {}).1.originalSize : ℚ) -
                ((optimizeImage codecOk sampleFS "d/a.png" {}).1.optimizedSize : ℚ)) /
              ((optimizeImage codecOk sampleFS "d/a.png" {}).1.originalSize : ℚ) * 100) :=
  ⟨by decide, (optimizeImage_reduction_formula codecOk sampleFS "d/a.png" {}).1 (by decide)⟩

/-- C4: on every successful call, the original input file is absent from
the final filesystem exactly when keepOriginal is false and the
lowercased input extension differs from the dotted target extension;
otherwise it is still present. -/
theorem original_deletion_policy (codec : Codec) (fs : FS) (p : String)
    (o : OptimizeOptions) (h : (optimizeImage codec fs p o).1.success = true) :
    ((optimizeImage codec fs p o).2.files p = none ↔
      (o.keepOriginal = false ∧
        (extname p).toLower ≠ "." ++ outputExtension o.format)) := by
  revert h
  simp only [optimizeImage]
  split
  · intro h; simp [failResult] at h
  · split
    · intro h; simp [failResult] at h
    · split
      · intro h; simp [failResult] at h
      · rename_i o1 orig horig e1 sz he1 o2 optSz ho2
        intro _
        cases hod : o.outputDir <;>
          · simp only [hod]
            split
            · rename_i hcnd
              exact iff_of_true (by simp [fsErase]) hcnd
            · rename_i hcnd
              refine iff_of_false ?_ hcnd
              simp only [fsWrite, fsMkdir, fsErase]
              split <;> simp [horig]

/-- C4 witness: a png converted to webp with keepOriginal left false is
deleted; the iff instantiates to a true condition. -/
theorem original_deletion_policy_witness :
    (optimizeImage codecOk sampleFS "d/a.png" {}).1.success = true ∧
    ((optimizeImage codecOk sampleFS "d/a.png" {}).2.files "d/a.png" = none ↔
      (({} : OptimizeOptions).keepOriginal = false ∧
        (extname "d/a.png").toLower ≠
          "." ++ outputExtension ({} : OptimizeOptions).format)) :=
  ⟨by decide, original_deletion_policy codecOk sampleFS "d/a.png" {} (by decide)⟩

/-- C7: on every successful call the output path is the outputDir when
set, else the input directory, joined with the input base name and the
canonical extension of the requested format, which is jpg and never
jpeg; and when outputDir is set it exists as a directory in the final
state. -/
theorem output_path_formula (codec : Codec) (fs : FS) (p : String)
    (o : OptimizeOptions) (h : (optimizeImage codec fs p o).1.success = true) :
    (optimizeImage codec fs p o).1.outputPath =
      pathJoin (o.outputDir.getD (dirname p))
        ((basename p).dropRight (extname p).length ++ "." ++
          outputExtension o.format) ∧
    outputExtension .jpg = "jpg" ∧ outputExtension .webp = "webp" ∧
    outputExtension .png = "png" ∧
    (∀ d, o.outputDir = some d →
      (optimizeImage codec fs p o).2.dirs d = true) := by
  revert h
  simp only [optimizeImage]
  split
  · intro h; simp [failResult] at h
  · split
    · intro h; simp [failResult] at h
    · split
      · intro h; simp [failResult] at h
      · intro _
        refine ⟨?_, rfl, rfl, rfl, ?_⟩
        · cases hod : o.outputDir <;> simp [hod]
        · intro d hd
          simp only [hd]
          split <;> simp [fsErase, fsWrite, fsMkdir]

/-- C7 witness at a concrete successful call with an output directory. -/
theorem output_path_formula_witness :
    (optimizeImage codecOk sampleFS "d/a.png" { outputDir := some "out" }).1.success
        = true ∧
    (optimizeImage codecOk sampleFS "d/a.png" { outputDir := some "out" }).1.outputPath
        = pathJoin ((some "out").getD (dirname "d/a.png"))
            ((basename "d/a.png").dropRight (extname "d/a.png").length ++ "." ++
              outputExtension Format.webp) ∧
    (optimizeImage codecOk sampleFS "d/a.png" { outputDir := some "out" }).2.dirs "out"
        = true :=
  ⟨by decide,
   (output_path_formula codecOk sampleFS "d/a.png" { outputDir := some "out" }
      (by decide)).1,
   (output_path_formula codecOk sampleFS "d/a.png" { outputDir := some "out" }
      (by decide)).2.2.2.2 "out" rfl⟩

/-- C2: optimizeBatch returns one result per input, in input order: the
result list has the length of the input list, and its i-th element is
the optimizeImage result for the i-th input, taken in the filesystem
state the batch has reached after the first i inputs. -/
theorem optimizeBatch_one_to_one (codec : Codec) (fs : FS) (inputs : List String)
    (o : OptimizeOptions) :
    (optimizeBatch codec fs inputs o).1.length = inputs.length ∧
    ∀ i : ℕ, (optimizeBatch codec fs inputs o).1.get? i =
      (inputs.get? i).map
        (fun p => (optimizeImage codec (batchFS codec fs (inputs.take i) o) p o).1) := by
  induction inputs generalizing fs with
  | nil => exact ⟨rfl, fun i => by cases i <;> rfl⟩
  | cons p rest ih =>
    refine ⟨?_, ?_⟩
    · simpa [optimizeBatch] using (ih (optimizeImage codec fs p o).2).1
    · intro i
      cases i with
      | zero => simp [optimizeBatch, batchFS]
      | succ n =>
        simpa [optimizeBatch, batchFS] using (ih (optimizeImage codec fs p o).2).2 n

/-- Each uploaded file contributes exactly one result to the handler
loop, failures included. -/
theorem processFiles_length (codec : Codec) (fs : FS) (tempDir : String)
    (q : ℤ) (fmt : Format) (files : List UploadedFile) :
    (processFiles codec fs tempDir q fmt files).1.length = files.length := by
  induction files generalizing fs with
  | nil => rfl
  | cons f rest ih => simpa [processFiles] using ih _

/-- When every result of the handler loop failed, no output path was
collected. -/
theorem processFiles_no_success (codec : Codec) (fs : FS) (tempDir : String)
    (q : ℤ) (fmt : Format) (files : List UploadedFile)
    (h : ∀ r ∈ (processFiles codec fs tempDir q fmt files).1, r.success = false) :
    (processFiles codec fs tempDir q fmt files).2.1 = [] := by
  induction files generalizing fs with
  | nil => rfl
  | cons f rest ih =>
    simp only [processFiles, List.mem_cons] at h
    have hhead := h _ (Or.inl rfl)
    have htail := ih _ (fun r hr => h r (Or.inr hr))
    simp [processFiles, hhead, htail]

/-- C5 counterexample: with zero files sent the handler answers 400 with
a bare error object whose details field is absent, not a body with a
details list. -/
theorem handleOptimize_no_details_counterexample :
    responseDetails (handleOptimize codecFail sampleFS "temp" [] 75 Format.webp).1
        = none ∧
    (handleOptimize codecFail sampleFS "temp" [] 75 Format.webp).1 =
      OptimizeResponse.badRequest "Nenhuma imagem foi enviada" none :=
  ⟨rfl, rfl⟩

/-- C5 amended: with zero files sent the handler answers 400 with only
an error message and no details; with at least one file and zero
successful optimizations it answers 400 with a details list holding one
file-error pair per input, and no archive is produced. -/
theorem handleOptimize_failure_responses (codec : Codec) (fs : FS)
    (tempDir : String) (q : ℤ) (fmt : Format) (files : List UploadedFile) :
    (files = [] → (handleOptimize codec fs tempDir files q fmt).1 =
      OptimizeResponse.badRequest "Nenhuma imagem foi enviada" none) ∧
    (files ≠ [] →
      (∀ r ∈ (processFiles codec fs tempDir q fmt files).1, r.success = false) →
      (handleOptimize codec fs tempDir files q fmt).1 =
        OptimizeResponse.badRequest "Nenhuma imagem foi processada com sucesso"
          (some ((processFiles codec fs tempDir q fmt files).1.map
            (fun r => (r.inputPath, r.error.getD "Erro desconhecido")))) ∧
      ((processFiles codec fs tempDir q fmt files).1.map
        (fun r => (r.inputPath, r.error.getD "Erro desconhecido"))).length =
        files.length) := by
  constructor
  · intro h
    subst h
    rfl
  · intro hne hall
    have houts := processFiles_no_success codec fs tempDir q fmt files hall
    refine ⟨?_, ?_⟩
    · simp [handleOptimize, hne, houts]
    · simp [processFiles_length]

/-- C5 witness: one upload that fails to optimize yields the 400 body
with exactly one detail pair. -/
theorem handleOptimize_failure_responses_witness :
    ([sampleUpload] ≠ ([] : List UploadedFile)) ∧
    ((handleOptimize codecFail sampleFS "temp" [sampleUpload] 75 Format.webp).1 =
      OptimizeResponse.badRequest "Nenhuma imagem foi processada com sucesso"
        (some ((processFiles codecFail sampleFS "temp" 75 Format.webp
            [sampleUpload]).1.map
          (fun r => (r.inputPath, r.error.getD "Erro desconhecido")))) ∧
    ((processFiles codecFail sampleFS "temp" 75 Format.webp [sampleUpload]).1.map
      (fun r => (r.inputPath, r.error.getD "Erro desconhecido"))).length =
      [sampleUpload].length) :=
  ⟨by decide,
   (handleOptimize_failure_responses codecFail sampleFS "temp" 75 Format.webp
      [sampleUpload]).2 (by decide) (by decide)⟩

/-- C8: the archive builder keeps, in order, one entry named by base
filename for every path of its input list that still exists, skipping
missing paths without failing; and the handler, given at least one
successful optimization, delivers the archive built this way from the
successfully optimized outputs. -/
theorem archiveEntries_spec (codec : Codec) (fs0 : FS) (tempDir : String)
    (q : ℤ) (fmt : Format) (files : List UploadedFile) (fs : FS)
    (ps : List String) :
    archiveEntries fs ps =
      (ps.filter (fun p => (fs.files p).isSome)).map basename ∧
    (files ≠ [] → (processFiles codec fs0 tempDir q fmt files).2.1 ≠ [] →
      (handleOptimize codec fs0 tempDir files q fmt).1 =
        OptimizeResponse.okZip
          (archiveEntries (processFiles codec fs0 tempDir q fmt files).2.2
            (processFiles codec fs0 tempDir q fmt files).2.1)) := by
  constructor
  · induction ps with
    | nil => rfl
    | cons p rest ih =>
      simp only [archiveEntries]
      cases h : fs.files p <;> simp [List.filter_cons, h, ih]
  · intro h1 h2
    simp [handleOptimize, h1, h2]

/-- C8 witness: one successful upload produces the archive of its output
path. -/
theorem archiveEntries_spec_witness :
    ([sampleUpload] ≠ ([] : List UploadedFile)) ∧
    ((processFiles codecOk sampleFS "temp" 75 Format.webp [sampleUpload]).2.1 ≠ []) ∧
    (handleOptimize codecOk sampleFS "temp" [sampleUpload] 75 Format.webp).1 =
      OptimizeResponse.okZip
        (archiveEntries (processFiles codecOk sampleFS "temp" 75 Format.webp
            [sampleUpload]).2.2
          (processFiles codecOk sampleFS "temp" 75 Format.webp [sampleUpload]).2.1) :=
  ⟨by decide, by decide,
   (archiveEntries_spec codecOk sampleFS "temp" 75 Format.webp [sampleUpload]
      sampleFS []).2 (by decide) (by decide)⟩

/-- C9: the directory scan returns exactly the files whose extension,
lowercased, is a supported image extension: descending into every
subdirectory when recursive, and only over the top level otherwise; the
support test is membership of the lowercased extension in the
whitelist. -/
theorem findImages_characterization (listing : List DirEntry) (dirPath : String)
    (n : String) :
    findImagesInDirectory listing dirPath true =
      ((allFiles dirPath listing).filter (fun x => isSupportedImage x.2)).map
        Prod.fst ∧
    findImagesInDirectory listing dirPath false =
      ((topFiles dirPath listing).filter (fun x => isSupportedImage x.2)).map
        Prod.fst ∧
    (isSupportedImage n = true ↔
      (extname n).toLower ∈ [".png", ".jpg", ".jpeg", ".webp"]) := by
  refine ⟨?_, ?_, ?_⟩
  · show scanDir true dirPath listing = _
    induction dirPath, listing using scanDir.induct true with
    | case1 cur => simp [scanDir, allFiles]
    | case2 cur name es rest ih1 ih2 => simp [scanDir, allFiles, ih1, ih2]
    | case3 cur name rest ih =>
      by_cases h : isSupportedImage name <;> simp [scanDir, allFiles, h, ih]
  · show scanDir false dirPath listing = _
    induction dirPath, listing using scanDir.induct false with
    | case1 cur => simp [scanDir, topFiles]
    | case2 cur name es rest ih1 ih2 => simp [scanDir, topFiles, ih1, ih2]
    | case3 cur name rest ih =>
      by_cases h : isSupportedImage name <;> simp [scanDir, topFiles, h, ih]
  · simp [isSupportedImage, supportedExtensions]

/-- C9 witness at the sample listing: uppercase and mixed-case
extensions are found, the text file is not, and the subdirectory is
descended into only when recursive. -/
theorem findImages_characterization_witness :
    findImagesInDirectory sampleListing "root" true =
      ((allFiles "root" sampleListing).filter
        (fun x => isSupportedImage x.2)).map Prod.fst ∧
    findImagesInDirectory sampleListing "root" false =
      ((topFiles "root" sampleListing).filter
        (fun x => isSupportedImage x.2)).map Prod.fst ∧
    (isSupportedImage "PHOTO.JPG" = true ↔
      (extname "PHOTO.JPG").toLower ∈ [".png", ".jpg", ".jpeg", ".webp"]) :=
  findImages_characterization sampleListing "root" "PHOTO.JPG"

/-- C10: formatBytes of zero is the literal zero-bytes string; for any
byte count from 1 up to 1024 to the fourth the unit index stays within
the four-element unit array and selects a valid unit name; from 1024 to
the fourth on, the index falls outside the array and no unit is
defined. -/
theorem formatBytes_unit_bounds :
    formatBytes 0 = "0 Bytes" ∧
    (∀ b : ℕ, 1 ≤ b → b < 1024 ^ 4 →
      unitIndex b ≤ 3 ∧ (sizesArr.get? (unitIndex b)).getD "undefined" ∈ sizesArr) ∧
    (∀ b : ℕ, 1024 ^ 4 ≤ b →
      4 ≤ unitIndex b ∧ sizesArr.get? (unitIndex b) = none) := by
  refine ⟨rfl, ?_, ?_⟩
  · intro b hb1 hb2
    have hlt : unitIndex b < 4 :=
      (Nat.lt_pow_iff_log_lt (by norm_num) (by omega)).mp hb2
    have hmem : ∀ i, i < 4 → (sizesArr.get? i).getD "undefined" ∈ sizesArr := by
      decide
    exact ⟨by omega, hmem _ hlt⟩
  · intro b hb
    have hb0 : b ≠ 0 := by
      have : (0:ℕ) < 1024 ^ 4 := by norm_num
      omega
    have hge : 4 ≤ unitIndex b :=
      (Nat.pow_le_iff_le_log (by norm_num) hb0).mp hb
    refine ⟨hge, ?_⟩
    apply List.get?_eq_none.mpr
    simpa [sizesArr] using hge

/-- C10 witness at 5 bytes and at 1024 to the fourth bytes. -/
theorem formatBytes_unit_bounds_witness :
    (1 : ℕ) ≤ 5 ∧ (5 : ℕ) < 1024 ^ 4 ∧ unitIndex 5 ≤ 3 ∧
    (sizesArr.get? (unitIndex 5)).getD "undefined" ∈ sizesArr ∧
    (1024 : ℕ) ^ 4 ≤ 1024 ^ 4 ∧ 4 ≤ unitIndex (1024 ^ 4) ∧
    sizesArr.get? (unitIndex (1024 ^ 4)) = none :=
  ⟨by norm_num, by norm_num,
   (formatBytes_unit_bounds.2.1 5 (by norm_num) (by norm_num)).1,
   (formatBytes_unit_bounds.2.1 5 (by norm_num) (by norm_num)).2,
   le_refl _,
   (formatBytes_unit_bounds.2.2 (1024 ^ 4) (le_refl _)).1,
   (formatBytes_unit_bounds.2.2 (1024 ^ 4) (le_refl _)).2⟩

end ImageOpt
